import Mathlib

/-!
Verification of the PyEmergia core (file `PyEmergia.py`): the `DataManager`
store (LCI matrix, unit metadata, transformity table, JSON session snapshot)
and the `EmergyCalculator` engine (total-emergy, direct-inputs-sum and
emergy-indices calculation modes).

Modelling conventions, matching the source:
* Machine floats that hold finite data values are modelled as rationals.
  The indices mode also produces IEEE special values, modelled by the
  explicit type `EF` (finite, positive infinity, not-a-number); all values
  fed into the index formulas are validated nonnegative by the source, so a
  negative infinity never arises.
* Python `float(x)` parsing of an untrusted input is modelled by pairing the
  raw string with the parse outcome (`PVal`): `num = some q` when the parse
  succeeds with value `q`, `none` when it raises `ValueError`.
* Python dicts are insertion-ordered association lists; updating an existing
  key keeps its position (`dset`), deletion filters it out (`ddel`).
* A pandas DataFrame cell is `Option` a rational: `none` models `NaN`
  ("unset"), as produced by `add_lci_input_flow` / `add_lci_process_column`.
* GUI message boxes are modelled as structured error values; functions that
  show an error and `return False` become `Option`/`Except` failures.
-/

/-- Decidable equality for `Except`, used to evaluate engine outcomes on
concrete inputs. -/
instance {ε α : Type} [DecidableEq ε] [DecidableEq α] :
    DecidableEq (Except ε α) := fun a b =>
  match a, b with
  | .error e, .error f =>
    if h : e = f then isTrue (by rw [h])
    else isFalse (fun hc => h (Except.error.inj hc))
  | .ok x, .ok y =>
    if h : x = y then isTrue (by rw [h])
    else isFalse (fun hc => h (Except.ok.inj hc))
  | .error _, .ok _ => isFalse Except.noConfusion
  | .ok _, .error _ => isFalse Except.noConfusion

/-- Lookup in an insertion-ordered association list (Python dict access). -/
def dget {α : Type} : List (String × α) → String → Option α
  | [], _ => none
  | p :: rest, k => if p.1 = k then some p.2 else dget rest k

/-- Assignment `d[k] = v` on an insertion-ordered association list:
an existing key keeps its position, a new key is appended. -/
def dset {α : Type} : List (String × α) → String → α → List (String × α)
  | [], k, v => [(k, v)]
  | p :: rest, k, v => if p.1 = k then (k, v) :: rest else p :: dset rest k v

/-- Deletion `del d[k]` on an association list. -/
def ddel {α : Type} (d : List (String × α)) (k : String) : List (String × α) :=
  d.filter (fun p => p.1 != k)

/-- An untrusted textual input value: the raw string together with the outcome
of Python `float(raw)` (`some q` when the conversion succeeds). -/
structure PVal where
  raw : String
  num : Option ℚ
deriving DecidableEq

/-- One entry of the transformity table: `{'value': ..., 'unit': ...}`. -/
structure TfEntry where
  value : ℚ
  tfUnit : String
deriving DecidableEq

/-- The `DataManager` state: the LCI DataFrame (row names, column names and
the row-major cell grid, `none` = NaN), the flow/process unit dict and the
transformity dict. -/
structure DataManager where
  lci_index : List String
  lci_columns : List String
  lci_data : List (List (Option ℚ))
  lci_units : List (String × String)
  transformities : List (String × TfEntry)
deriving DecidableEq

/-- Well-formedness of the DataFrame grid: one data row per index label and
every row as wide as the column list (a pandas DataFrame is rectangular). -/
def DataManager.Wf (dm : DataManager) : Prop :=
  dm.lci_data.length = dm.lci_index.length ∧
    ∀ r ∈ dm.lci_data, r.length = dm.lci_columns.length

/-- Helper for `pyStrip`: drop leading whitespace characters. -/
def dropWhileWs : List Char → List Char
  | [] => []
  | c :: rest => if c.isWhitespace then dropWhileWs rest else c :: rest

/-- Python `str.strip()`: remove leading and trailing whitespace. -/
def pyStrip (s : String) : String :=
  ⟨(dropWhileWs (dropWhileWs s.data).reverse).reverse⟩

/-- Python `str.replace(a, b)` for the single-character patterns the source
uses: substitute every occurrence of the character. -/
def replaceChar (s : String) (a b : Char) : String :=
  ⟨s.data.map (fun c => if c = a then b else c)⟩

/-- `_validate_name`: strip surrounding whitespace and reject the empty
result (a None input is likewise rejected in the source). -/
def validate_name (name : String) : Option String :=
  let s := pyStrip name
  if s = "" then none else some s

/-- `add_lci_input_flow`: append a new row of NaN cells; rejects an invalid
name or a name already present in the row index (the column names are not
consulted).  The unit dict entry for the name is overwritten. -/
def add_lci_input_flow (dm : DataManager) (flow_name lciUnit : String) :
    Option DataManager :=
  match validate_name flow_name with
  | none => none
  | some fn =>
    if fn ∈ dm.lci_index then none
    else some { dm with
      lci_index := dm.lci_index ++ [fn]
      lci_data := dm.lci_data ++ [List.replicate dm.lci_columns.length none]
      lci_units := dset dm.lci_units fn (pyStrip lciUnit) }

/-- `add_lci_process_column`: append a new NaN column; rejects an invalid
name or a name already present among the columns. -/
def add_lci_process_column (dm : DataManager) (process_name lciUnit : String) :
    Option DataManager :=
  match validate_name process_name with
  | none => none
  | some pn =>
    if pn ∈ dm.lci_columns then none
    else some { dm with
      lci_columns := dm.lci_columns ++ [pn]
      lci_data := dm.lci_data.map (fun r => r ++ [none])
      lci_units := dset dm.lci_units pn (pyStrip lciUnit) }

/-- `set_lci_value`: overwrite the cell at (flow, process) with a parsed
numeric value; fails on an invalid or unknown name or an unparsable value. -/
def set_lci_value (dm : DataManager) (flow_name process_name : String)
    (value : PVal) : Option DataManager :=
  match validate_name flow_name, validate_name process_name with
  | some fn, some pn =>
    if fn ∉ dm.lci_index then none
    else if pn ∉ dm.lci_columns then none
    else
      match value.num with
      | none => none
      | some v => some { dm with
          lci_data := List.zipWith
            (fun rname row =>
              if rname = fn then
                List.zipWith (fun cname cell => if cname = pn then some v else cell)
                  dm.lci_columns row
              else row)
            dm.lci_index dm.lci_data }
  | _, _ => none

/-- `remove_lci_input_flow`: drop every row carrying the label and delete the
unit dict entry of the label; fails when the label is not a row. -/
def remove_lci_input_flow (dm : DataManager) (flow_name : String) :
    Option DataManager :=
  match validate_name flow_name with
  | none => none
  | some fn =>
    if fn ∈ dm.lci_index then
      let keep := (dm.lci_index.zip dm.lci_data).filter (fun p => p.1 != fn)
      some { dm with
        lci_index := keep.map (fun p => p.1)
        lci_data := keep.map (fun p => p.2)
        lci_units := ddel dm.lci_units fn }
    else none

/-- `get_lci_matrix_for_calc`: the dense numeric matrix, NaN cells
materialized as 0 (`fillna(0).values`). -/
def get_lci_matrix_for_calc (dm : DataManager) : List (List ℚ) :=
  dm.lci_data.map (fun r => r.map (fun c => c.getD 0))

/-- `get_lci_unit`: unit of a flow or process, empty string when absent. -/
def get_lci_unit (dm : DataManager) (name : String) : String :=
  (dget dm.lci_units (pyStrip name)).getD ""

/-- The default unit string of `add_transformity` in the source. -/
def default_tf_unit : String := "sej/unidade_original"

/-- `add_transformity`: insert or overwrite the table entry for the flow;
fails on an invalid name or unparsable value.  An empty unit string falls
back to the default unit string (Python truthiness of `unit_str`). -/
def add_transformity (dm : DataManager) (flow_name : String) (value : PVal)
    (unit_str : String) : Option DataManager :=
  match validate_name flow_name with
  | none => none
  | some fn =>
    match value.num with
    | none => none
    | some v => some { dm with
        transformities := dset dm.transformities fn
          ⟨v, if unit_str ≠ "" then pyStrip unit_str else default_tf_unit⟩ }

/-- Calling `add_transformity` without the unit argument: Python fills in the
default parameter `"sej/unidade_original"`. -/
def add_transformity_default (dm : DataManager) (flow_name : String)
    (value : PVal) : Option DataManager :=
  add_transformity dm flow_name value default_tf_unit

/-- `get_transformity_value`: numeric value stored for a flow, if any. -/
def get_transformity_value (dm : DataManager) (flow_name : String) : Option ℚ :=
  (dget dm.transformities (pyStrip flow_name)).map (fun e => e.value)

/-- A cell of the serialized session record: a JSON number, a JSON null
(NaN is serialized this way conceptually), or any other value that
`pd.to_numeric(errors=coerce)` turns into NaN on load. -/
inductive JsonCell
  | jnum (q : ℚ)
  | jnull
  | jother
deriving DecidableEq

/-- Serialization of one DataFrame cell inside `to_dict(orient=split)`. -/
def save_cell : Option ℚ → JsonCell
  | some q => .jnum q
  | none => .jnull

/-- The structured session record written by `save_data_to_json`:
the split-orient DataFrame dict plus the two plain dicts. -/
structure SessionData where
  dataRows : List (List JsonCell)
  index : List String
  columns : List String
  lci_units : List (String × String)
  transformities : List (String × TfEntry)
deriving DecidableEq

/-- `save_data_to_json`: serialize the store as a plain structured record. -/
def save_data_to_json (dm : DataManager) : SessionData :=
  { dataRows := dm.lci_data.map (fun r => r.map save_cell)
    index := dm.lci_index
    columns := dm.lci_columns
    lci_units := dm.lci_units
    transformities := dm.transformities }

/-- Per-cell effect of `pd.to_numeric(..., errors=coerce)` on load: numbers
survive, null stays NaN, anything non-numeric is coerced to NaN (unset). -/
def load_cell : JsonCell → Option ℚ
  | .jnum q => some q
  | .jnull => none
  | .jother => none

/-- `load_data_from_json` on a record carrying all three named parts:
rebuild the DataFrame from index, columns and data, coercing every
non-numeric cell, and take the two dicts verbatim. -/
def load_data_from_json (sd : SessionData) : DataManager :=
  { lci_index := sd.index
    lci_columns := sd.columns
    lci_data := sd.dataRows.map (fun r => r.map load_cell)
    lci_units := sd.lci_units
    transformities := sd.transformities }

/-- The manual-override parameter key for a flow name: spaces and periods
replaced by underscores, after the fixed key stem. -/
def paramKey (fn : String) : String :=
  "transformity_" ++ replaceChar (replaceChar fn ' ' '_') '.' '_'

/-- Which source supplied the transformity of a flow, as logged by
`_get_required_transformities`. -/
inductive TfSource
  | manual
  | table
deriving DecidableEq

/-- The four accumulators of the loop in `_get_required_transformities`:
the final value dict, the malformed-override flow list, the unresolved flow
list and the per-flow source log. -/
structure TfAcc where
  final_tf : List (String × ℚ)
  tfErrors : List String
  missingInfo : List String
  tfLog : List (String × TfSource)
deriving DecidableEq

/-- One iteration of the loop in `_get_required_transformities`: a present
override key is parsed (malformed ones are recorded), otherwise the stored
table value is used, otherwise the flow is recorded as unresolved. -/
def tfStep (dm : DataManager) (params : List (String × PVal)) (acc : TfAcc)
    (fn : String) : TfAcc :=
  match dget params (paramKey fn) with
  | some v =>
    match v.num with
    | some q => { acc with final_tf := dset acc.final_tf fn q
                           tfLog := acc.tfLog ++ [(fn, .manual)] }
    | none => { acc with tfErrors := acc.tfErrors ++ [fn] }
  | none =>
    match get_transformity_value dm fn with
    | some q => { acc with final_tf := dset acc.final_tf fn q
                           tfLog := acc.tfLog ++ [(fn, .table)] }
    | none => { acc with missingInfo := acc.missingInfo ++ [fn] }

/-- Outcome of `_get_required_transformities`: the resolved value dict with
the source log, or a hard failure listing either every flow with a malformed
manual override or every unresolved flow. -/
inductive ResolveOutcome
  | ok (final_tf : List (String × ℚ)) (tfLog : List (String × TfSource))
  | manualErrors (flows : List String)
  | missingTf (flows : List String)
deriving DecidableEq

/-- `_get_required_transformities`: run the per-flow loop, then fail on any
malformed override, else fail on any unresolved flow, else succeed. -/
def get_required_transformities (dm : DataManager)
    (input_flow_names : List String) (params : List (String × PVal)) :
    ResolveOutcome :=
  let acc := input_flow_names.foldl (tfStep dm params) ⟨[], [], [], []⟩
  if acc.tfErrors ≠ [] then .manualErrors acc.tfErrors
  else if acc.missingInfo ≠ [] then .missingTf acc.missingInfo
  else .ok acc.final_tf acc.tfLog

/-- Column sums of a row-major matrix, `np.sum(m, axis=0)` on an array of
shape (rows, ncols). -/
def colSums (m : List (List ℚ)) (ncols : ℕ) : List ℚ :=
  (List.range ncols).map (fun j => (m.map (fun r => r.getD j 0)).sum)

/-- Failures of `_calculate_total_emergy_logic` (each shown as an error box
in the source before the function returns False). -/
inductive TEErr
  | emptyMatrix
  | manualTfInvalid (flows : List String)
  | missingTf (flows : List String)
  | dimensionMismatch
deriving DecidableEq

/-- Successful results of `_calculate_total_emergy_logic`: the per-flow
contribution DataFrame (with its index and columns) and the per-process
total Series (indexed by the process names). -/
structure TotalEmergyResults where
  contrib : List (List ℚ)
  contrib_index : List String
  contrib_columns : List String
  totals : List ℚ
deriving DecidableEq

/-- `_calculate_total_emergy_logic`: empty matrix is a hard failure; a matrix
with processes but no flows succeeds with zero totals and an empty
contribution table; otherwise resolve the transformities (propagating their
failure), defensively check the dimensions, and multiply each matrix row by
the transformity of its flow, summing columns for the totals. -/
def calculate_total_emergy_logic (dm : DataManager)
    (params : List (String × PVal)) : Except TEErr TotalEmergyResults :=
  let lci_matrix := get_lci_matrix_for_calc dm
  let input_flow_names := dm.lci_index
  let process_names := dm.lci_columns
  if input_flow_names = [] ∧ process_names = [] then .error .emptyMatrix
  else if input_flow_names = [] then
    .ok ⟨[], [], process_names, process_names.map (fun _ => 0)⟩
  else
    match get_required_transformities dm input_flow_names params with
    | .manualErrors fs => .error (.manualTfInvalid fs)
    | .missingTf fs => .error (.missingTf fs)
    | .ok required_tfs _tfLog =>
      let tf_vector := input_flow_names.map (fun n => (dget required_tfs n).getD 0)
      if input_flow_names ≠ [] ∧ lci_matrix.length ≠ tf_vector.length then
        .error .dimensionMismatch
      else if 0 < lci_matrix.length * process_names.length ∧
          0 < tf_vector.length ∧ 0 < lci_matrix.length then
        let contrib := List.zipWith (fun row t => row.map (fun x => x * t))
          lci_matrix tf_vector
        .ok ⟨contrib, input_flow_names, process_names,
          colSums contrib process_names.length⟩
      else
        .ok ⟨input_flow_names.map (fun _ => process_names.map (fun _ => 0)),
          input_flow_names, process_names, process_names.map (fun _ => 0)⟩

/-- Outcome of `_calculate_direct_inputs_sum_logic`: the returned boolean
(always true in the source), the per-process sum Series with its index, and
the summary log lines appended by the function. -/
structure DirectSumOutcome where
  success : Bool
  series : List ℚ
  series_index : List String
  summary : List String
deriving DecidableEq

/-- `_calculate_direct_inputs_sum_logic`: an empty DataFrame or a flow-less
matrix yields a zero Series over the existing processes with an explanatory
log line; otherwise each process gets the column sum of the dense matrix. -/
def calculate_direct_inputs_sum_logic (dm : DataManager) : DirectSumOutcome :=
  let process_names := dm.lci_columns
  let input_flow_names := dm.lci_index
  let dfEmpty := dm.lci_index = [] ∨ dm.lci_columns = []
  if dfEmpty ∨ input_flow_names = [] then
    let msg :=
      if input_flow_names = [] ∧ process_names ≠ [] then
        "LCI matrix has no input flows. The direct input sums are zero."
      else if dfEmpty then
        "LCI matrix is completely empty. The direct input sums are zero."
      else
        "LCI matrix contains no input flows. The direct input sums are zero."
    ⟨true, process_names.map (fun _ => 0), process_names, [msg]⟩
  else
    ⟨true, colSums (get_lci_matrix_for_calc dm) process_names.length,
      process_names, ["Direct input sums per process computed."]⟩

/-- IEEE-style extended value produced by the indices mode: a finite
rational, positive infinity, or not-a-number.  All operands occurring in the
source are nonnegative (validated), so negative infinity never arises. -/
inductive EF
  | fin (q : ℚ)
  | infty
  | nan
deriving DecidableEq

/-- Python `x != 0.0` on an extended value (true for inf and for nan). -/
def EF.ne_zero : EF → Bool
  | .fin q => if q = 0 then false else true
  | .infty => true
  | .nan => true

/-- Python `x > 0.0` on an extended value (false for nan). -/
def EF.gt_zero : EF → Bool
  | .fin q => decide (0 < q)
  | .infty => true
  | .nan => false

/-- Python `pd.isna x` on an extended value. -/
def EF.isna : EF → Bool
  | .nan => true
  | _ => false

/-- IEEE float division on extended values, restricted to the nonnegative
operands this program produces. -/
def EF.div : EF → EF → EF
  | .nan, _ => .nan
  | .fin _, .nan => .nan
  | .infty, .nan => .nan
  | .fin a, .fin b => if b = 0 then (if a = 0 then .nan else .infty) else .fin (a / b)
  | .fin _, .infty => .fin 0
  | .infty, .fin _ => .infty
  | .infty, .infty => .nan

/-- Parameter failures of `_calculate_emergy_indices_logic`, one error box
per violation in the source. -/
inductive IdxParamErr
  | missingParam (k : String)
  | negativeParam (k : String)
  | nonNumericParam (k : String)
deriving DecidableEq

/-- The three scalar results of the indices mode. -/
structure IndicesResults where
  eyr : EF
  elr : EF
  esi : EF
deriving DecidableEq

/-- Validation of one required scalar parameter of the indices mode: absent
or blank, unparsable, and negative values each fail with the corresponding
error (in the order of the source checks). -/
def getParamNum (params : List (String × PVal)) (k : String) :
    Except IdxParamErr ℚ :=
  match dget params k with
  | none => .error (.missingParam k)
  | some v =>
    if pyStrip v.raw = "" then .error (.missingParam k)
    else
      match v.num with
      | some q => if q < 0 then .error (.negativeParam k) else .ok q
      | none => .error (.nonNumericParam k)

/-- Resolution of the optional parameter Y: absent or blank defaults to
R + N + F; a supplied value must parse and be nonnegative. -/
def resolveY (params : List (String × PVal)) (r n f : ℚ) :
    Except IdxParamErr ℚ :=
  match dget params "Y" with
  | none => .ok (r + n + f)
  | some v =>
    if pyStrip v.raw = "" then .ok (r + n + f)
    else
      match v.num with
      | some q => if q < 0 then .error (.negativeParam "Y") else .ok q
      | none => .error (.nonNumericParam "Y")

/-- `_calculate_emergy_indices_logic`: validate R, N, F in that order (the
source returns on the first violation), resolve Y, then compute EYR, ELR and
ESI exactly along the branch structure of the source. -/
def calculate_emergy_indices_logic (params : List (String × PVal)) :
    Except IdxParamErr IndicesResults :=
  match getParamNum params "R" with
  | .error e => .error e
  | .ok r =>
    match getParamNum params "N" with
    | .error e => .error e
    | .ok n =>
      match getParamNum params "F" with
      | .error e => .error e
      | .ok f =>
        match resolveY params r n f with
        | .error e => .error e
        | .ok y =>
          let eyr : EF :=
            if f ≠ 0 then .fin (y / f)
            else if 0 < y then .infty else .nan
          let elr : EF :=
            if r ≠ 0 then .fin ((n + f) / r)
            else if 0 < n + f then .infty else .fin 0
          let esi : EF :=
            if elr.ne_zero = true ∧
                ¬(eyr.isna = true ∨ elr.isna = true ∨ elr = .infty) then
              eyr.div elr
            else if elr = .fin 0 ∧ eyr.gt_zero = true ∧ ¬eyr.isna = true then
              .infty
            else .nan
          .ok ⟨eyr, elr, esi⟩

/-- Modelled from the spec and the amended claim C6: whether one required
parameter of the indices mode is violated (absent or blank, non-numeric, or
negative), and which violation it is. -/
def violationOf (params : List (String × PVal)) (k : String) :
    Option IdxParamErr :=
  match dget params k with
  | none => some (.missingParam k)
  | some v =>
    if pyStrip v.raw = "" then some (.missingParam k)
    else
      match v.num with
      | none => some (.nonNumericParam k)
      | some q => if q < 0 then some (.negativeParam k) else none

/-- Modelled from the spec and the amended claim C6: the violation of the
optional parameter Y, which is only checked when supplied non-blank. -/
def violationOfY (params : List (String × PVal)) : Option IdxParamErr :=
  match dget params "Y" with
  | none => none
  | some v =>
    if pyStrip v.raw = "" then none
    else
      match v.num with
      | none => some (.nonNumericParam "Y")
      | some q => if q < 0 then some (.negativeParam "Y") else none

/-- Modelled from the amended claim C6: the first parameter violation in the
check order R, N, F, Y. -/
def first_param_violation (params : List (String × PVal)) :
    Option IdxParamErr :=
  match violationOf params "R" with
  | some e => some e
  | none =>
    match violationOf params "N" with
    | some e => some e
    | none =>
      match violationOf params "F" with
      | some e => some e
      | none => violationOfY params

/-- Override present but its value fails to parse (the malformed-override
predicate of the resolver loop). -/
def overrideMalformed (params : List (String × PVal)) (fn : String) : Bool :=
  match dget params (paramKey fn) with
  | some v => v.num.isNone
  | none => false

/-- Neither a manual override nor a table entry exists for the flow (the
unresolved predicate of the resolver loop). -/
def flowUnresolved (dm : DataManager) (params : List (String × PVal))
    (fn : String) : Bool :=
  (dget params (paramKey fn)).isNone && (get_transformity_value dm fn).isNone

/-- The value the resolver assigns to a single flow when it can: the parsed
override if an override key is present, else the stored table value. -/
def resolveOne (dm : DataManager) (params : List (String × PVal))
    (fn : String) : Option ℚ :=
  match dget params (paramKey fn) with
  | some v => v.num
  | none => get_transformity_value dm fn

theorem dget_dset_self {α : Type} (d : List (String × α)) (k : String) (v : α) :
    dget (dset d k v) k = some v := by
  induction d with
  | nil => simp [dget, dset]
  | cons p rest ih =>
    by_cases h : p.1 = k
    · simp [dset, h, dget]
    · simp [dset, h, dget, ih]

theorem dget_dset_ne {α : Type} (d : List (String × α)) (k k' : String) (v : α)
    (h : k' ≠ k) : dget (dset d k v) k' = dget d k' := by
  have h' : ¬k = k' := fun hc => h hc.symm
  induction d with
  | nil => simp [dget, dset, h']
  | cons p rest ih =>
    by_cases hp : p.1 = k
    · simp [dset, hp, dget, h']
    · simp [dset, hp, dget, ih]

theorem dget_ddel_self {α : Type} (d : List (String × α)) (k : String) :
    dget (ddel d k) k = none := by
  induction d with
  | nil => simp [ddel, dget]
  | cons p rest ih =>
    by_cases h : p.1 = k
    · simpa [ddel, List.filter_cons, h] using ih
    · simpa [ddel, List.filter_cons, h, dget] using ih

theorem getD_map_of_lt {α β : Type} (f : α → β) (l : List α) (i : ℕ)
    (d : α) (d' : β) (h : i < l.length) :
    (l.map f).getD i d' = f (l.getD i d) := by
  induction l generalizing i with
  | nil => simp at h
  | cons a t ih =>
    cases i with
    | zero => simp
    | succ n =>
      simp only [List.map_cons, List.getD_cons_succ]
      exact ih n (by simpa using Nat.lt_of_succ_lt_succ h)

theorem getD_zipWith_of_lt {α β γ : Type} (f : α → β → γ) (l1 : List α)
    (l2 : List β) (i : ℕ) (d1 : α) (d2 : β) (d3 : γ)
    (h1 : i < l1.length) (h2 : i < l2.length) :
    (List.zipWith f l1 l2).getD i d3 = f (l1.getD i d1) (l2.getD i d2) := by
  induction l1 generalizing l2 i with
  | nil => simp at h1
  | cons a t ih =>
    cases l2 with
    | nil => simp at h2
    | cons b t2 =>
      cases i with
      | zero => simp
      | succ n =>
        simp only [List.zipWith_cons_cons, List.getD_cons_succ]
        exact ih t2 n (Nat.lt_of_succ_lt_succ h1) (Nat.lt_of_succ_lt_succ h2)

theorem getD_of_length_le {α : Type} (l : List α) (i : ℕ) (d : α)
    (h : l.length ≤ i) : l.getD i d = d := by
  induction l generalizing i with
  | nil => cases i <;> simp
  | cons a t ih =>
    cases i with
    | zero => simp at h
    | succ n => simpa using ih n (Nat.le_of_succ_le_succ h)

theorem getD_range_of_lt (n i : ℕ) (h : i < n) :
    (List.range n).getD i 0 = i := by
  induction n with
  | zero => simp at h
  | succ m ih =>
    rcases Nat.lt_succ_iff_lt_or_eq.mp h with hlt | heq
    · rw [List.range_succ, List.getD_eq_getElem?_getD, List.getElem?_append]
      simp only [List.length_range]
      rw [if_pos hlt, ← List.getD_eq_getElem?_getD]
      exact ih hlt
    · subst heq
      rw [List.range_succ, List.getD_eq_getElem?_getD, List.getElem?_append]
      simp

theorem tfFold_errors (dm : DataManager) (params : List (String × PVal))
    (flows : List String) (acc : TfAcc) :
    (flows.foldl (tfStep dm params) acc).tfErrors
      = acc.tfErrors ++ flows.filter (overrideMalformed params) := by
  induction flows generalizing acc with
  | nil => simp
  | cons fn rest ih =>
    rw [List.foldl_cons, ih, List.filter_cons]
    cases hk : dget params (paramKey fn) with
    | none =>
      cases ht : get_transformity_value dm fn <;>
        simp [tfStep, overrideMalformed, hk, ht]
    | some v =>
      cases hv : v.num with
      | some q => simp [tfStep, overrideMalformed, hk, hv]
      | none => simp [tfStep, overrideMalformed, hk, hv]

theorem tfFold_missing (dm : DataManager) (params : List (String × PVal))
    (flows : List String) (acc : TfAcc) :
    (flows.foldl (tfStep dm params) acc).missingInfo
      = acc.missingInfo ++ flows.filter (flowUnresolved dm params) := by
  induction flows generalizing acc with
  | nil => simp
  | cons fn rest ih =>
    rw [List.foldl_cons, ih, List.filter_cons]
    cases hk : dget params (paramKey fn) with
    | none =>
      cases ht : get_transformity_value dm fn <;>
        simp [tfStep, flowUnresolved, hk, ht]
    | some v =>
      cases hv : v.num with
      | some q => simp [tfStep, flowUnresolved, hk, hv]
      | none => simp [tfStep, flowUnresolved, hk, hv]

theorem dget_tfStep (dm : DataManager) (params : List (String × PVal))
    (acc : TfAcc) (g fn : String) :
    dget (tfStep dm params acc g).final_tf fn
      = if fn = g ∧ (resolveOne dm params g).isSome then resolveOne dm params g
        else dget acc.final_tf fn := by
  cases hk : dget params (paramKey g) with
  | some v =>
    cases hv : v.num with
    | some q =>
      by_cases hg : fn = g
      · subst hg; simp [tfStep, resolveOne, hk, hv, dget_dset_self]
      · simp [tfStep, resolveOne, hk, hv, hg, dget_dset_ne _ _ _ _ hg]
    | none => simp [tfStep, resolveOne, hk, hv]
  | none =>
    cases ht : get_transformity_value dm g with
    | some q =>
      by_cases hg : fn = g
      · subst hg; simp [tfStep, resolveOne, hk, ht, dget_dset_self]
      · simp [tfStep, resolveOne, hk, ht, hg, dget_dset_ne _ _ _ _ hg]
    | none => simp [tfStep, resolveOne, hk, ht]

theorem tfFold_final (dm : DataManager) (params : List (String × PVal))
    (flows : List String) (acc : TfAcc) (fn : String) :
    dget (flows.foldl (tfStep dm params) acc).final_tf fn
      = if fn ∈ flows ∧ (resolveOne dm params fn).isSome
        then resolveOne dm params fn
        else dget acc.final_tf fn := by
  induction flows generalizing acc with
  | nil => simp
  | cons g rest ih =>
    rw [List.foldl_cons, ih, dget_tfStep]
    by_cases hs : (resolveOne dm params fn).isSome
    · by_cases hmem : fn ∈ rest
      · simp [hmem, hs, List.mem_cons]
      · by_cases hg : fn = g
        · subst hg
          simp [hmem, hs, List.mem_cons]
        · simp [hmem, hs, hg, List.mem_cons]
    · have h1 : ¬(fn ∈ rest ∧ (resolveOne dm params fn).isSome = true) :=
        fun hc => hs hc.2
      have h2 : ¬(fn ∈ g :: rest ∧ (resolveOne dm params fn).isSome = true) :=
        fun hc => hs hc.2
      have h3 : ¬(fn = g ∧ (resolveOne dm params g).isSome = true) := by
        rintro ⟨hg, hsg⟩
        subst hg
        exact hs hsg
      rw [if_neg h1, if_neg h3, if_neg h2]

theorem get_required_eq (dm : DataManager) (flows : List String)
    (params : List (String × PVal)) :
    get_required_transformities dm flows params =
      if flows.filter (overrideMalformed params) ≠ [] then
        .manualErrors (flows.filter (overrideMalformed params))
      else if flows.filter (flowUnresolved dm params) ≠ [] then
        .missingTf (flows.filter (flowUnresolved dm params))
      else
        .ok (flows.foldl (tfStep dm params) ⟨[], [], [], []⟩).final_tf
          (flows.foldl (tfStep dm params) ⟨[], [], [], []⟩).tfLog := by
  unfold get_required_transformities
  simp only [tfFold_errors, tfFold_missing, List.nil_append]

theorem get_required_ok_inv (dm : DataManager) (flows : List String)
    (params : List (String × PVal)) (tf : List (String × ℚ))
    (tfLog : List (String × TfSource))
    (hok : get_required_transformities dm flows params = .ok tf tfLog) :
    flows.filter (overrideMalformed params) = []
    ∧ flows.filter (flowUnresolved dm params) = []
    ∧ tf = (flows.foldl (tfStep dm params) ⟨[], [], [], []⟩).final_tf := by
  rw [get_required_eq] at hok
  by_cases hbad : flows.filter (overrideMalformed params) = []
  · by_cases hunres : flows.filter (flowUnresolved dm params) = []
    · rw [if_neg (by simp [hbad]), if_neg (by simp [hunres])] at hok
      refine ⟨hbad, hunres, ?_⟩
      cases hok
      rfl
    · rw [if_neg (by simp [hbad]), if_pos hunres] at hok
      cases hok
  · rw [if_pos hbad] at hok
    cases hok

/-- Sample store used by concrete witnesses: one flow Sun (table transformity
1500 = 1.5e3), one process Widget, cell value 100. -/
def sunWidget : DataManager :=
  ⟨["Sun"], ["Widget"], [[some 100]], [], [("Sun", ⟨1500, "sej/J"⟩)]⟩

/-- C2: for every required flow name, a present manual-override key whose
value parses wins over the stored table value; the table value is used
exactly when no override key is present for the flow. -/
theorem spec_c2_override_precedence (dm : DataManager)
    (params : List (String × PVal)) (flows : List String) (fn : String)
    (tf : List (String × ℚ)) (tfLog : List (String × TfSource))
    (hok : get_required_transformities dm flows params = .ok tf tfLog)
    (hfn : fn ∈ flows) :
    (∀ v q, dget params (paramKey fn) = some v → v.num = some q →
        dget tf fn = some q)
    ∧ (dget params (paramKey fn) = none →
        dget tf fn = get_transformity_value dm fn) := by
  obtain ⟨he, hm, htf⟩ := get_required_ok_inv dm flows params tf tfLog hok
  subst htf
  rw [tfFold_final]
  constructor
  · intro v q hk hv
    have hr : resolveOne dm params fn = some q := by simp [resolveOne, hk, hv]
    simp [hfn, hr]
  · intro hk
    have hr : resolveOne dm params fn = get_transformity_value dm fn := by
      simp [resolveOne, hk]
    cases ht : get_transformity_value dm fn with
    | some q => simp [hfn, hr, ht]
    | none =>
      exfalso
      have hu : flowUnresolved dm params fn = true := by
        simp [flowUnresolved, hk, ht]
      have hmem : fn ∈ flows.filter (flowUnresolved dm params) :=
        List.mem_filter.mpr ⟨hfn, hu⟩
      rw [hm] at hmem
      exact absurd hmem (List.not_mem_nil fn)

/-- C2 witness: an override of 2.0e3 for Sun coexisting with a table entry
of 1.5e3 resolves to 2.0e3. -/
theorem spec_c2_override_precedence_witness :
    (∀ v q, dget [("transformity_Sun", PVal.mk "2.0e3" (some 2000))]
          (paramKey "Sun") = some v → v.num = some q →
        dget [("Sun", (2000 : ℚ))] "Sun" = some q)
    ∧ (dget [("transformity_Sun", PVal.mk "2.0e3" (some 2000))]
          (paramKey "Sun") = none →
        dget [("Sun", (2000 : ℚ))] "Sun"
          = get_transformity_value sunWidget "Sun") :=
  spec_c2_override_precedence sunWidget
    [("transformity_Sun", PVal.mk "2.0e3" (some 2000))] ["Sun"] "Sun"
    [("Sun", 2000)] [("Sun", .manual)] (by decide) (by decide)

/-- C3: transformity resolution for total-emergy mode hard-fails exactly when
some manual override is malformed (the failure lists every malformed
override) or, absent parse errors, some required flow has neither an
override nor a table entry (the failure lists all unresolved flows); in
either case the total-emergy run aborts with an error and produces no
contribution table or totals. -/
theorem spec_c3_resolution_failure (dm : DataManager)
    (params : List (String × PVal)) (hr : dm.lci_index ≠ []) :
    (dm.lci_index.filter (overrideMalformed params) ≠ [] →
      get_required_transformities dm dm.lci_index params
          = .manualErrors (dm.lci_index.filter (overrideMalformed params))
        ∧ calculate_total_emergy_logic dm params
          = .error (.manualTfInvalid
              (dm.lci_index.filter (overrideMalformed params))))
    ∧ (dm.lci_index.filter (overrideMalformed params) = [] →
        dm.lci_index.filter (flowUnresolved dm params) ≠ [] →
      get_required_transformities dm dm.lci_index params
          = .missingTf (dm.lci_index.filter (flowUnresolved dm params))
        ∧ calculate_total_emergy_logic dm params
          = .error (.missingTf (dm.lci_index.filter (flowUnresolved dm params))))
    ∧ (dm.lci_index.filter (overrideMalformed params) = [] →
        dm.lci_index.filter (flowUnresolved dm params) = [] →
      ∃ tf tfLog, get_required_transformities dm dm.lci_index params
          = .ok tf tfLog) := by
  refine ⟨?_, ?_, ?_⟩
  · intro hbad
    have h1 : get_required_transformities dm dm.lci_index params
        = .manualErrors (dm.lci_index.filter (overrideMalformed params)) := by
      rw [get_required_eq, if_pos hbad]
    refine ⟨h1, ?_⟩
    simp [calculate_total_emergy_logic, hr, h1]
  · intro hbad hunres
    have h1 : get_required_transformities dm dm.lci_index params
        = .missingTf (dm.lci_index.filter (flowUnresolved dm params)) := by
      rw [get_required_eq, if_neg (by simp [hbad]), if_pos hunres]
    refine ⟨h1, ?_⟩
    simp [calculate_total_emergy_logic, hr, h1]
  · intro hbad hunres
    exact ⟨_, _, by
      rw [get_required_eq, if_neg (by simp [hbad]), if_neg (by simp [hunres])]⟩

/-- C3 witness: a flow Wind present in the matrix but absent from the
transformity table and from the overrides makes the total-emergy run fail
naming that flow. -/
theorem spec_c3_resolution_failure_witness :
    get_required_transformities ⟨["Wind"], ["Widget"], [[some 5]], [], []⟩
        ["Wind"] [] = .missingTf ["Wind"]
    ∧ calculate_total_emergy_logic ⟨["Wind"], ["Widget"], [[some 5]], [], []⟩
        [] = .error (.missingTf ["Wind"]) := by
  have h := (spec_c3_resolution_failure
    ⟨["Wind"], ["Widget"], [[some 5]], [], []⟩ [] (by decide)).2.1
    (by decide) (by decide)
  have hf : (DataManager.lci_index ⟨["Wind"], ["Widget"], [[some 5]], [], []⟩).filter
      (flowUnresolved ⟨["Wind"], ["Widget"], [[some 5]], [], []⟩ []) = ["Wind"] := by
    decide
  rw [hf] at h
  exact h

/-- C1: for an LCI matrix with at least one flow row, a successful
total-emergy run yields contribution cells equal to the dense matrix value
times the resolved transformity of the row flow, and per-process totals
equal to the column sums of the contribution table. -/
theorem spec_c1_total_emergy_contributions (dm : DataManager)
    (params : List (String × PVal)) (tf : List (String × ℚ))
    (tfLog : List (String × TfSource)) (res : TotalEmergyResults)
    (hr : dm.lci_index ≠ [])
    (hres : get_required_transformities dm dm.lci_index params = .ok tf tfLog)
    (hok : calculate_total_emergy_logic dm params = .ok res)
    (i j : ℕ) (hi : i < dm.lci_index.length) (hj : j < dm.lci_columns.length) :
    (res.contrib.getD i []).getD j 0
      = ((get_lci_matrix_for_calc dm).getD i []).getD j 0
        * (dget tf (dm.lci_index.getD i "")).getD 0
    ∧ res.totals.getD j 0
      = (res.contrib.map (fun r => r.getD j 0)).sum := by
  simp only [calculate_total_emergy_logic] at hok
  rw [if_neg (fun hc => hr hc.1), if_neg hr, hres] at hok
  simp only [] at hok
  by_cases hdim : (get_lci_matrix_for_calc dm).length
      = (List.map (fun n => (dget tf n).getD 0) dm.lci_index).length
  · rw [if_neg (fun hc => hc.2 hdim)] at hok
    have hitv : i < (List.map (fun n => (dget tf n).getD 0) dm.lci_index).length := by
      rw [List.length_map]
      exact hi
    have hiM : i < (get_lci_matrix_for_calc dm).length := by
      rw [hdim]
      exact hitv
    have hcols : 0 < dm.lci_columns.length := lt_of_le_of_lt (Nat.zero_le j) hj
    have hMpos : 0 < (get_lci_matrix_for_calc dm).length :=
      lt_of_le_of_lt (Nat.zero_le i) hiM
    have hc2 : 0 < (get_lci_matrix_for_calc dm).length * dm.lci_columns.length ∧
        0 < (List.map (fun n => (dget tf n).getD 0) dm.lci_index).length ∧
        0 < (get_lci_matrix_for_calc dm).length :=
      ⟨Nat.mul_pos hMpos hcols, lt_of_le_of_lt (Nat.zero_le i) hitv, hMpos⟩
    rw [if_pos hc2, Except.ok.injEq] at hok
    subst hok
    constructor
    · rw [getD_zipWith_of_lt _ _ _ i [] 0 [] hiM hitv,
        getD_map_of_lt _ _ i "" 0 hi]
      by_cases hjrow : j < ((get_lci_matrix_for_calc dm).getD i []).length
      · rw [getD_map_of_lt _ _ j 0 0 hjrow]
      · have hle : ((get_lci_matrix_for_calc dm).getD i []).length ≤ j :=
          le_of_not_lt hjrow
        rw [getD_of_length_le _ _ _ (by simpa using hle),
          getD_of_length_le _ _ _ hle]
        ring
    · show (colSums _ dm.lci_columns.length).getD j 0 = _
      rw [colSums, getD_map_of_lt _ _ j 0 0 (by simpa using hj),
        getD_range_of_lt _ _ hj]
  · rw [if_pos ⟨hr, hdim⟩] at hok
    simp at hok

/-- C1 witness: a single cell Sun over Widget equal to 100 with transformity
1.5e3 yields contribution and total 1.5e5 for Widget. -/
theorem spec_c1_total_emergy_contributions_witness :
    ((TotalEmergyResults.mk [[150000]] ["Sun"] ["Widget"] [150000]).contrib.getD
        0 []).getD 0 0
      = ((get_lci_matrix_for_calc sunWidget).getD 0 []).getD 0 0
        * (dget [("Sun", (1500 : ℚ))] (sunWidget.lci_index.getD 0 "")).getD 0
    ∧ (TotalEmergyResults.mk [[150000]] ["Sun"] ["Widget"] [150000]).totals.getD
        0 0
      = ((TotalEmergyResults.mk [[150000]] ["Sun"] ["Widget"] [150000]).contrib.map
          (fun r => r.getD 0 0)).sum := by
  have hres : get_required_transformities sunWidget ["Sun"] []
      = .ok [("Sun", 1500)] [("Sun", .table)] := by decide
  have h2 : sunWidget.lci_index = ["Sun"] := rfl
  have h3 : sunWidget.lci_columns = ["Widget"] := rfl
  have h4 : get_lci_matrix_for_calc sunWidget = [[100]] := by decide
  have hok : calculate_total_emergy_logic sunWidget []
      = .ok ⟨[[150000]], ["Sun"], ["Widget"], [150000]⟩ := by
    simp only [calculate_total_emergy_logic, h2, h3, h4, hres]
    norm_num [colSums, List.range_succ, dget]
  exact spec_c1_total_emergy_contributions sunWidget [] [("Sun", 1500)]
    [("Sun", .table)] ⟨[[150000]], ["Sun"], ["Widget"], [150000]⟩
    (by decide) hres hok 0 0 (by decide) (by decide)

/-- Sample store used by concrete witnesses: flows R1 and R2 over processes
P1 and P2, column P1 = [10, unset] and column P2 = [20, 5]. -/
def twoByTwo : DataManager :=
  ⟨["R1", "R2"], ["P1", "P2"], [[some 10, some 20], [none, some 5]], [], []⟩

/-- C7: direct-inputs-sum never fails; with at least one flow row each
process gets the dense-matrix column sum (unset cells as 0), and with no
flow rows the run succeeds with an all-zero series over the existing
processes together with an explanatory log line. -/
theorem spec_c7_direct_inputs_sum (dm : DataManager) :
    (calculate_direct_inputs_sum_logic dm).success = true
    ∧ (dm.lci_index ≠ [] → ∀ j, j < dm.lci_columns.length →
        (calculate_direct_inputs_sum_logic dm).series.getD j 0
          = ((get_lci_matrix_for_calc dm).map (fun r => r.getD j 0)).sum)
    ∧ (dm.lci_index = [] →
        (calculate_direct_inputs_sum_logic dm).series
            = dm.lci_columns.map (fun _ => 0)
          ∧ (calculate_direct_inputs_sum_logic dm).summary ≠ []) := by
  simp only [calculate_direct_inputs_sum_logic]
  by_cases hrow : dm.lci_index = []
  · rw [if_pos (Or.inr hrow)]
    refine ⟨rfl, ?_, ?_⟩
    · intro h
      exact absurd hrow h
    · intro _
      exact ⟨rfl, by simp⟩
  · by_cases hcol : dm.lci_columns = []
    · rw [if_pos (Or.inl (Or.inr hcol))]
      refine ⟨rfl, ?_, ?_⟩
      · intro _ j hj
        rw [hcol] at hj
        simp at hj
      · intro h
        exact absurd h hrow
    · rw [if_neg (by simp [hrow, hcol])]
      refine ⟨rfl, ?_, ?_⟩
      · intro _ j hj
        show (colSums _ dm.lci_columns.length).getD j 0 = _
        rw [colSums, getD_map_of_lt _ _ j 0 0 (by simpa using hj),
          getD_range_of_lt _ _ hj]
      · intro h
        exact absurd h hrow

/-- C7 witness: columns P1 = [10, unset] and P2 = [20, 5] sum to 10 and 25. -/
theorem spec_c7_direct_inputs_sum_witness :
    (calculate_direct_inputs_sum_logic twoByTwo).series.getD 0 0 = 10
    ∧ (calculate_direct_inputs_sum_logic twoByTwo).series.getD 1 0 = 25 := by
  have h0 := (spec_c7_direct_inputs_sum twoByTwo).2.1 (by decide) 0 (by decide)
  have h1 := (spec_c7_direct_inputs_sum twoByTwo).2.1 (by decide) 1 (by decide)
  have hm : get_lci_matrix_for_calc twoByTwo = [[10, 20], [0, 5]] := by decide
  refine ⟨?_, ?_⟩
  · rw [h0, hm]
    norm_num
  · rw [h1, hm]
    norm_num

theorem load_save_cell (c : Option ℚ) : load_cell (save_cell c) = c := by
  cases c <;> rfl

/-- C8: loading a saved snapshot restores an identical store (names, order,
values, unset cells, unit and transformity tables), and a non-numeric record
cell is coerced to unset by the load instead of failing it. -/
theorem spec_c8_save_load_roundtrip (dm : DataManager) (h : dm.Wf) :
    load_data_from_json (save_data_to_json dm) = dm
    ∧ load_cell JsonCell.jother = none := by
  refine ⟨?_, rfl⟩
  obtain ⟨ri, ci, da, un, tfs⟩ := dm
  have hf : (load_cell ∘ save_cell) = id := funext load_save_cell
  simp [load_data_from_json, save_data_to_json, List.map_map, hf]

/-- C8 witness: round trip on a concrete store with an unset cell. -/
theorem spec_c8_save_load_roundtrip_witness :
    load_data_from_json (save_data_to_json twoByTwo) = twoByTwo
    ∧ load_cell JsonCell.jother = none :=
  spec_c8_save_load_roundtrip twoByTwo (by constructor <;> decide)

/-- C9 counterexample: adding a transformity without an explicit unit stores
the default unit string of the source, which differs from the string
sej/unit stated by the claim. -/
theorem spec_c9_default_unit_cex :
    add_transformity_default ⟨[], [], [], [], []⟩ "Sun" ⟨"1.5e3", some 1500⟩
      = some ⟨[], [], [], [], [("Sun", ⟨1500, "sej/unidade_original"⟩)]⟩
    ∧ ("sej/unidade_original" : String) ≠ "sej/unit" := by
  constructor
  · decide
  · decide

/-- C9 (amended): addTransformity without an explicit unit, or with an empty
unit string, inserts or overwrites the entry for the flow with the default
unit string sej/unidade_original; the lookup afterwards returns the new
entry whatever was stored before (overwrite semantics). -/
theorem spec_c9_default_unit_amended (dm : DataManager) (fn : String)
    (v : PVal) (q : ℚ) (hname : pyStrip fn ≠ "") (hv : v.num = some q) :
    add_transformity_default dm fn v
        = some { dm with transformities := dset dm.transformities (pyStrip fn) ⟨q, default_tf_unit⟩ }
    ∧ add_transformity dm fn v ""
        = some { dm with transformities := dset dm.transformities (pyStrip fn) ⟨q, default_tf_unit⟩ }
    ∧ dget (dset dm.transformities (pyStrip fn) ⟨q, default_tf_unit⟩)
        (pyStrip fn) = some ⟨q, default_tf_unit⟩ := by
  have hval : validate_name fn = some (pyStrip fn) := by
    simp [validate_name, hname]
  have hd : pyStrip default_tf_unit = default_tf_unit := by decide
  have hne : default_tf_unit ≠ "" := by decide
  refine ⟨?_, ?_, dget_dset_self _ _ _⟩
  · simp [add_transformity_default, add_transformity, hval, hv, hne, hd]
  · simp [add_transformity, hval, hv]

/-- C9 witness: concrete insertion with the default unit argument. -/
theorem spec_c9_default_unit_amended_witness :
    add_transformity_default ⟨[], [], [], [], []⟩ "Sun" ⟨"1.5e3", some 1500⟩
        = some { (⟨[], [], [], [], []⟩ : DataManager) with transformities := dset [] (pyStrip "Sun") ⟨1500, default_tf_unit⟩ }
    ∧ add_transformity ⟨[], [], [], [], []⟩ "Sun" ⟨"1.5e3", some 1500⟩ ""
        = some { (⟨[], [], [], [], []⟩ : DataManager) with transformities := dset [] (pyStrip "Sun") ⟨1500, default_tf_unit⟩ }
    ∧ dget (dset ([] : List (String × TfEntry)) (pyStrip "Sun")
          ⟨1500, default_tf_unit⟩) (pyStrip "Sun")
        = some (⟨1500, default_tf_unit⟩ : TfEntry) :=
  spec_c9_default_unit_amended ⟨[], [], [], [], []⟩ "Sun" ⟨"1.5e3", some 1500⟩
    1500 (by decide) rfl

/-- C10: the unit map is one namespace shared by flow and process names:
addFlow with the name of an existing process succeeds (row and column name
sets are checked independently) and overwrites that unit entry with the
flow unit, and a subsequent removeFlow deletes the shared entry, so getUnit
of the still-existing process column afterwards is the empty string. -/
theorem spec_c10_shared_unit_namespace (dm : DataManager) (p u : String)
    (h1 : pyStrip p = p) (h2 : p ≠ "")
    (hc : p ∈ dm.lci_columns) (hr : p ∉ dm.lci_index) :
    ∃ dm1, add_lci_input_flow dm p u = some dm1
      ∧ get_lci_unit dm1 p = pyStrip u
      ∧ ∃ dm2, remove_lci_input_flow dm1 p = some dm2
        ∧ p ∈ dm2.lci_columns
        ∧ get_lci_unit dm2 p = "" := by
  have hval : validate_name p = some p := by
    rw [validate_name, h1]
    simp [h2]
  have hadd : add_lci_input_flow dm p u
      = some { dm with
          lci_index := dm.lci_index ++ [p]
          lci_data := dm.lci_data ++ [List.replicate dm.lci_columns.length none]
          lci_units := dset dm.lci_units p (pyStrip u) } := by
    simp [add_lci_input_flow, hval, hr]
  refine ⟨_, hadd, ?_, ?_⟩
  · rw [get_lci_unit, h1]
    simp [dget_dset_self]
  · have hmem : p ∈ dm.lci_index ++ [p] := by simp
    have hrem : remove_lci_input_flow
        { dm with
          lci_index := dm.lci_index ++ [p]
          lci_data := dm.lci_data ++ [List.replicate dm.lci_columns.length none]
          lci_units := dset dm.lci_units p (pyStrip u) } p
        = some { dm with
            lci_index := (((dm.lci_index ++ [p]).zip
              (dm.lci_data ++ [List.replicate dm.lci_columns.length none])).filter
                (fun pr => pr.1 != p)).map (fun pr => pr.1)
            lci_data := (((dm.lci_index ++ [p]).zip
              (dm.lci_data ++ [List.replicate dm.lci_columns.length none])).filter
                (fun pr => pr.1 != p)).map (fun pr => pr.2)
            lci_units := ddel (dset dm.lci_units p (pyStrip u)) p } := by
      simp [remove_lci_input_flow, hval, hmem]
    refine ⟨_, hrem, hc, ?_⟩
    rw [get_lci_unit, h1]
    simp [dget_ddel_self]

/-- C10 witness: a store with process P carrying unit kg; adding flow P with
unit m3 overwrites the unit, removing flow P erases it. -/
theorem spec_c10_shared_unit_namespace_witness :
    ∃ dm1, add_lci_input_flow ⟨[], ["P"], [], [("P", "kg")], []⟩ "P" "m3"
        = some dm1
      ∧ get_lci_unit dm1 "P" = pyStrip "m3"
      ∧ ∃ dm2, remove_lci_input_flow dm1 "P" = some dm2
        ∧ "P" ∈ dm2.lci_columns
        ∧ get_lci_unit dm2 "P" = "" :=
  spec_c10_shared_unit_namespace ⟨[], ["P"], [], [("P", "kg")], []⟩ "P" "m3"
    (by decide) (by decide) (by decide) (by decide)

/-- C4: with valid R, N, F and Y resolved (defaulting to R + N + F when the
Y parameter is absent or blank), EYR and ELR follow the zero-guarded
formulas of the source. -/
theorem spec_c4_eyr_elr_formulas (params : List (String × PVal))
    (r n f y : ℚ) (res : IndicesResults)
    (hR : getParamNum params "R" = .ok r)
    (hN : getParamNum params "N" = .ok n)
    (hF : getParamNum params "F" = .ok f)
    (hY : resolveY params r n f = .ok y)
    (hok : calculate_emergy_indices_logic params = .ok res) :
    (dget params "Y" = none → y = r + n + f)
    ∧ (∀ v, dget params "Y" = some v → pyStrip v.raw = "" → y = r + n + f)
    ∧ (f ≠ 0 → res.eyr = .fin (y / f))
    ∧ (f = 0 → 0 < y → res.eyr = .infty)
    ∧ (f = 0 → y = 0 → res.eyr = .nan)
    ∧ (r ≠ 0 → res.elr = .fin ((n + f) / r))
    ∧ (r = 0 → 0 < n + f → res.elr = .infty)
    ∧ (r = 0 → n + f = 0 → res.elr = .fin 0) := by
  unfold calculate_emergy_indices_logic at hok
  rw [hR, hN, hF] at hok
  simp only [] at hok
  rw [hY] at hok
  simp only [] at hok
  rw [Except.ok.injEq] at hok
  subst hok
  refine ⟨?_, ?_, ?_, ?_, ?_, ?_, ?_, ?_⟩
  · intro hYn
    unfold resolveY at hY
    rw [hYn] at hY
    simp only [] at hY
    exact ((Except.ok.injEq _ _).mp hY).symm
  · intro v hv ht
    unfold resolveY at hY
    rw [hv] at hY
    simp only [] at hY
    rw [if_pos ht] at hY
    exact ((Except.ok.injEq _ _).mp hY).symm
  · intro hf
    simp [hf]
  · intro hf hy
    simp [hf, hy]
  · intro hf hy
    simp [hf, hy]
  · intro hrne
    simp [hrne]
  · intro hr0 hnf
    simp [hr0, hnf]
  · intro hr0 hnf
    simp [hr0, hnf]

/-- Parameter bag used by the C4 witness: R=100, N=50, F=25, no Y. -/
def idxParamsA : List (String × PVal) :=
  [("R", ⟨"100", some 100⟩), ("N", ⟨"50", some 50⟩), ("F", ⟨"25", some 25⟩)]

/-- C4 witness: R=100, N=50, F=25, Y omitted gives Y=175, EYR=7, ELR=3/4. -/
theorem spec_c4_eyr_elr_formulas_witness :
    (dget idxParamsA "Y" = none → (175 : ℚ) = 100 + 50 + 25)
    ∧ (∀ v, dget idxParamsA "Y" = some v → pyStrip v.raw = "" →
        (175 : ℚ) = 100 + 50 + 25)
    ∧ ((25 : ℚ) ≠ 0 →
        (IndicesResults.mk (.fin 7) (.fin (3/4)) (.fin (28/3))).eyr
          = .fin (175 / 25))
    ∧ ((25 : ℚ) = 0 → (0 : ℚ) < 175 →
        (IndicesResults.mk (.fin 7) (.fin (3/4)) (.fin (28/3))).eyr = .infty)
    ∧ ((25 : ℚ) = 0 → (175 : ℚ) = 0 →
        (IndicesResults.mk (.fin 7) (.fin (3/4)) (.fin (28/3))).eyr = .nan)
    ∧ ((100 : ℚ) ≠ 0 →
        (IndicesResults.mk (.fin 7) (.fin (3/4)) (.fin (28/3))).elr
          = .fin ((50 + 25) / 100))
    ∧ ((100 : ℚ) = 0 → (0 : ℚ) < 50 + 25 →
        (IndicesResults.mk (.fin 7) (.fin (3/4)) (.fin (28/3))).elr = .infty)
    ∧ ((100 : ℚ) = 0 → (50 : ℚ) + 25 = 0 →
        (IndicesResults.mk (.fin 7) (.fin (3/4)) (.fin (28/3))).elr
          = .fin 0) := by
  have hR : getParamNum idxParamsA "R" = .ok 100 := by decide
  have hN : getParamNum idxParamsA "N" = .ok 50 := by decide
  have hF : getParamNum idxParamsA "F" = .ok 25 := by decide
  have hY : resolveY idxParamsA 100 50 25 = .ok 175 := by
    have h : dget idxParamsA "Y" = none := by decide
    unfold resolveY
    rw [h]
    norm_num
  have hok : calculate_emergy_indices_logic idxParamsA
      = .ok ⟨.fin 7, .fin (3/4), .fin (28/3)⟩ := by
    unfold calculate_emergy_indices_logic
    rw [hR, hN, hF]
    simp only []
    rw [hY]
    simp only []
    have e1 : (if (25 : ℚ) ≠ 0 then EF.fin ((175 : ℚ) / 25)
        else if 0 < (175 : ℚ) then EF.infty else EF.nan) = EF.fin 7 := by
      norm_num
    have e2 : (if (100 : ℚ) ≠ 0 then EF.fin (((50 : ℚ) + 25) / 100)
        else if 0 < (50 : ℚ) + 25 then EF.infty else EF.fin 0)
        = EF.fin (3/4) := by
      norm_num
    rw [e1, e2]
    have e3 : (EF.fin ((3 : ℚ)/4)).ne_zero = true
        ∧ ¬((EF.fin (7 : ℚ)).isna = true ∨ (EF.fin ((3 : ℚ)/4)).isna = true
            ∨ EF.fin ((3 : ℚ)/4) = EF.infty) :=
      ⟨by norm_num [EF.ne_zero], by simp [EF.isna]⟩
    rw [if_pos e3]
    simp only [EF.div]
    norm_num
  exact spec_c4_eyr_elr_formulas idxParamsA 100 50 25 175
    ⟨.fin 7, .fin (3/4), .fin (28/3)⟩ hR hN hF hY hok

theorem esi_cases (E L : EF) :
    ((∃ q, q ≠ 0 ∧ L = .fin q) ∧ E ≠ .nan →
      (if L.ne_zero = true ∧ ¬(E.isna = true ∨ L.isna = true ∨ L = .infty)
          then E.div L
          else if L = .fin 0 ∧ E.gt_zero = true ∧ ¬E.isna = true then EF.infty
          else EF.nan) = E.div L)
    ∧ (L = .fin 0 ∧ E.gt_zero = true →
      (if L.ne_zero = true ∧ ¬(E.isna = true ∨ L.isna = true ∨ L = .infty)
          then E.div L
          else if L = .fin 0 ∧ E.gt_zero = true ∧ ¬E.isna = true then EF.infty
          else EF.nan) = EF.infty)
    ∧ (¬((∃ q, q ≠ 0 ∧ L = .fin q) ∧ E ≠ .nan) →
        ¬(L = .fin 0 ∧ E.gt_zero = true) →
      (if L.ne_zero = true ∧ ¬(E.isna = true ∨ L.isna = true ∨ L = .infty)
          then E.div L
          else if L = .fin 0 ∧ E.gt_zero = true ∧ ¬E.isna = true then EF.infty
          else EF.nan) = EF.nan) := by
  refine ⟨?_, ?_, ?_⟩
  · rintro ⟨⟨q, hq0, rfl⟩, hEn⟩
    have hEi : E.isna = false := by cases E <;> simp_all [EF.isna]
    have hc1 : (EF.fin q).ne_zero = true
        ∧ ¬(E.isna = true ∨ (EF.fin q).isna = true ∨ EF.fin q = EF.infty) :=
      ⟨by simp [EF.ne_zero, hq0], by simp [EF.isna, hEi]⟩
    rw [if_pos hc1]
  · rintro ⟨rfl, hgt⟩
    have hEi : E.isna = false := by cases E <;> simp_all [EF.gt_zero, EF.isna]
    have hc1 : ¬((EF.fin (0 : ℚ)).ne_zero = true
        ∧ ¬(E.isna = true ∨ (EF.fin (0 : ℚ)).isna = true
            ∨ EF.fin (0 : ℚ) = EF.infty)) := by
      simp [EF.ne_zero]
    rw [if_neg hc1, if_pos ⟨rfl, hgt, by simp [hEi]⟩]
  · intro hnA hnB
    have hc2 : ¬(L = .fin 0 ∧ E.gt_zero = true ∧ ¬E.isna = true) :=
      fun hc => hnB ⟨hc.1, hc.2.1⟩
    have hc1 : ¬(L.ne_zero = true
        ∧ ¬(E.isna = true ∨ L.isna = true ∨ L = .infty)) := by
      rintro ⟨hne, hnor⟩
      apply hnA
      constructor
      · cases L with
        | fin q =>
          refine ⟨q, ?_, rfl⟩
          intro hq
          rw [hq] at hne
          simp [EF.ne_zero] at hne
        | infty => exact absurd (Or.inr (Or.inr rfl)) hnor
        | nan => exact absurd (Or.inr (Or.inl rfl)) hnor
      · intro hEn
        rw [hEn] at hnor
        exact hnor (Or.inl rfl)
    rw [if_neg hc1, if_neg hc2]

/-- C5: ESI equals EYR divided by ELR exactly when ELR is finite nonzero and
EYR is defined; ESI is positive infinity when ELR is zero and EYR positive;
in every other case, including an infinite ELR, ESI is not-a-number. -/
theorem spec_c5_esi_branches (params : List (String × PVal))
    (r n f y : ℚ) (res : IndicesResults)
    (hR : getParamNum params "R" = .ok r)
    (hN : getParamNum params "N" = .ok n)
    (hF : getParamNum params "F" = .ok f)
    (hY : resolveY params r n f = .ok y)
    (hok : calculate_emergy_indices_logic params = .ok res) :
    ((∃ q, q ≠ 0 ∧ res.elr = .fin q) ∧ res.eyr ≠ .nan →
        res.esi = res.eyr.div res.elr)
    ∧ (res.elr = .fin 0 ∧ res.eyr.gt_zero = true → res.esi = .infty)
    ∧ (¬((∃ q, q ≠ 0 ∧ res.elr = .fin q) ∧ res.eyr ≠ .nan) →
        ¬(res.elr = .fin 0 ∧ res.eyr.gt_zero = true) → res.esi = .nan) := by
  unfold calculate_emergy_indices_logic at hok
  rw [hR, hN, hF] at hok
  simp only [] at hok
  rw [hY] at hok
  simp only [] at hok
  rw [Except.ok.injEq] at hok
  subst hok
  exact esi_cases _ _

/-- Parameter bag used by the C5 witness: R=0, N=10, F=0, no Y. -/
def idxParamsB : List (String × PVal) :=
  [("R", ⟨"0", some 0⟩), ("N", ⟨"10", some 10⟩), ("F", ⟨"0", some 0⟩)]

/-- C5 witness: R=0, N=10, F=0 gives ELR and EYR infinite and ESI
not-a-number via the infinite-ELR branch. -/
theorem spec_c5_esi_branches_witness :
    calculate_emergy_indices_logic idxParamsB
      = .ok ⟨.infty, .infty, .nan⟩
    ∧ (IndicesResults.mk .infty .infty .nan).esi = .nan := by
  have hR : getParamNum idxParamsB "R" = .ok 0 := by decide
  have hN : getParamNum idxParamsB "N" = .ok 10 := by decide
  have hF : getParamNum idxParamsB "F" = .ok 0 := by decide
  have hY : resolveY idxParamsB 0 10 0 = .ok 10 := by
    have h : dget idxParamsB "Y" = none := by decide
    unfold resolveY
    rw [h]
    norm_num
  have hok : calculate_emergy_indices_logic idxParamsB
      = .ok ⟨.infty, .infty, .nan⟩ := by
    unfold calculate_emergy_indices_logic
    rw [hR, hN, hF]
    simp only []
    rw [hY]
    simp only []
    norm_num [EF.ne_zero, EF.isna, EF.gt_zero]
    exact fun h => EF.noConfusion h
  exact ⟨hok, (spec_c5_esi_branches idxParamsB 0 10 0 10
    ⟨.infty, .infty, .nan⟩ hR hN hF hY hok).2.2 (by simp) (by simp)⟩

theorem violationOf_eq (params : List (String × PVal)) (k : String) :
    violationOf params k = match getParamNum params k with
      | .error e => some e
      | .ok _ => none := by
  unfold violationOf getParamNum
  cases hd : dget params k with
  | none => simp
  | some v =>
    by_cases ht : pyStrip v.raw = ""
    · simp [ht]
    · cases hn : v.num with
      | none => simp [ht, hn]
      | some q => by_cases hq : q < 0 <;> simp [ht, hn, hq]

theorem violationOfY_eq (params : List (String × PVal)) (r n f : ℚ) :
    violationOfY params = match resolveY params r n f with
      | .error e => some e
      | .ok _ => none := by
  unfold violationOfY resolveY
  cases hd : dget params "Y" with
  | none => simp
  | some v =>
    by_cases ht : pyStrip v.raw = ""
    · simp [ht]
    · cases hn : v.num with
      | none => simp [ht, hn]
      | some q => by_cases hq : q < 0 <;> simp [ht, hn, hq]

/-- C6 (amended): indices-mode calculation fails exactly when one of R, N, F
is absent, blank, non-numeric or negative, or Y is supplied non-blank but
non-numeric or negative, and the reported failure is the first violation in
the check order R, N, F, Y — not every violation present in the input. -/
theorem spec_c6_first_violation_reported (params : List (String × PVal))
    (e : IdxParamErr) :
    calculate_emergy_indices_logic params = .error e ↔
      first_param_violation params = some e := by
  unfold calculate_emergy_indices_logic first_param_violation
  rw [violationOf_eq params "R", violationOf_eq params "N",
    violationOf_eq params "F"]
  cases hR : getParamNum params "R" with
  | error eR => simp
  | ok r =>
    cases hN : getParamNum params "N" with
    | error eN => simp
    | ok n =>
      cases hF : getParamNum params "F" with
      | error eF => simp
      | ok f =>
        rw [violationOfY_eq params r n f]
        cases hY : resolveY params r n f with
        | error eY => simp [hY]
        | ok y => simp [hY]

/-- C6 counterexample: with R negative and N non-numeric the failure reports
only the first violation (R); the violation of N, exhibited by the
spec-modelled violation predicate, is not reported, refuting the claim that
every violation present in the input is reported. -/
theorem spec_c6_first_violation_reported_cex :
    calculate_emergy_indices_logic
        [("R", ⟨"-1", some (-1)⟩), ("N", ⟨"abc", none⟩), ("F", ⟨"5", some 5⟩)]
      = .error (.negativeParam "R")
    ∧ violationOf
        [("R", ⟨"-1", some (-1)⟩), ("N", ⟨"abc", none⟩), ("F", ⟨"5", some 5⟩)]
        "N" = some (.nonNumericParam "N")
    ∧ IdxParamErr.negativeParam "R" ≠ .nonNumericParam "N" := by
  refine ⟨?_, ?_, ?_⟩
  · decide
  · decide
  · decide
